import Mathlib

/-!
# docker-example/main.go : a one-route HTTP server

Shallow embedding of `src/docker-example/main.go`:

```go
func helloHandler(w http.ResponseWriter, _ *http.Request) {
	fmt.Fprint(w, "Hello World")
}

func main() {
	http.HandleFunc("/hello", helloHandler)

	fmt.Println("Server is running on http://localhost:8080/hello")
	http.ListenAndServe(":8080", nil)
}
```

The two functions of the program are embedded statement by statement.  The
library operations they call (`fmt.Fprint`, `fmt.Println`, `http.HandleFunc`,
`http.ListenAndServe` and the default `ServeMux`) are given as explicit
state-passing definitions following the Go standard library, so that the
program can be evaluated on concrete requests.
-/

namespace HelloServer

/-! ## HTTP headers -/

/-- The handler-visible header map (`http.Header`): keys with their values. -/
abbrev Header := List (String × List String)

/-- Go `Header.Set`: replace whatever is stored under `key` by the single value.
Every key used in this development is already in canonical form. -/
def Header.Set (h : Header) (key value : String) : Header :=
  (key, [value]) :: h.filter (fun kv => kv.1 ≠ key)

/-- Go `h[key]` presence test (`_, ok := h[key]`). -/
def Header.has (h : Header) (key : String) : Bool :=
  h.any (fun kv => kv.1 = key)

/-! ## package net/url: escaped paths

Go strings are byte strings; a string is kept here with one character per byte. -/

/-- Go `ishex`: whether the byte is a hexadecimal digit. -/
def ishex (c : Char) : Bool :=
  ('0' ≤ c ∧ c ≤ '9') ∨ ('a' ≤ c ∧ c ≤ 'f') ∨ ('A' ≤ c ∧ c ≤ 'F')

/-- Go `unhex`: the value of a hexadecimal digit. -/
def unhex (c : Char) : Nat :=
  if '0' ≤ c ∧ c ≤ '9' then c.toNat - '0'.toNat
  else if 'a' ≤ c ∧ c ≤ 'f' then c.toNat - 'a'.toNat + 10
  else if 'A' ≤ c ∧ c ≤ 'F' then c.toNat - 'A'.toNat + 10
  else 0

/-- Go `unescape(s, encodePath)`, that is `url.PathUnescape`: every `%XX` becomes
the byte it encodes and every other byte stands for itself; a `%` that is not
followed by two hexadecimal digits is an error (`none`). -/
def unescape : List Char → Option (List Char)
  | [] => some []
  | c :: rest =>
    if c = '%' then
      match rest with
      | a :: b :: rest2 =>
        if ishex a ∧ ishex b then
          (unescape rest2).map (fun t => Char.ofNat (unhex a * 16 + unhex b) :: t)
        else none
      | _ => none
    else (unescape rest).map (fun t => c :: t)

/-- Go `shouldEscape(c, encodePath)`: in a path only letters, digits and the
bytes `-_.~$&+,/:;=@` stand for themselves. -/
def shouldEscape (c : Char) : Bool :=
  if ('a' ≤ c ∧ c ≤ 'z') ∨ ('A' ≤ c ∧ c ≤ 'Z') ∨ ('0' ≤ c ∧ c ≤ '9') then false
  else if c = '-' ∨ c = '_' ∨ c = '.' ∨ c = '~' then false
  else if c = '$' ∨ c = '&' ∨ c = '+' ∨ c = ',' ∨ c = '/' ∨ c = ':' ∨ c = ';' ∨ c = '=' ∨
      c = '@' then false
  else true

/-- The upper-case hexadecimal digit of a value below 16 (`upperhex[v]`). -/
def upperhex (v : Nat) : Char := "0123456789ABCDEF".data.getD v '0'

/-- Go `escape(s, encodePath)`: each byte that must be escaped becomes `%XX`. -/
def escape : List Char → List Char
  | [] => []
  | c :: rest =>
    if shouldEscape c then
      '%' :: upperhex (c.toNat / 16 % 16) :: upperhex (c.toNat % 16) :: escape rest
    else c :: escape rest

/-- Go `(*url.URL).String()` for a URL that has only a path and a query, which
is the kind of URL the mux redirects to. -/
def URLString (path rawQuery : String) : String :=
  let p := if path = "*" then "*".data else escape path.data
  -- a first path segment with a colon would read as a scheme
  let p := if (p.takeWhile (fun c => c ≠ '/')).contains ':' then "./".data ++ p else p
  String.mk (if rawQuery = "" then p else p ++ '?' :: rawQuery.data)

/-! ## HTTP requests -/

/-- The fields of `*http.Request` that request routing reads, for a request as
the server parses it (`ReadRequest`). -/
structure Request where
  /-- Field `r.Method`. -/
  Method : String
  /-- Field `r.Host`, the Host header (or the host of an absolute request target). -/
  Host : String
  /-- Field `r.URL.Host`. -/
  URLHost : String
  /-- Field `r.URL.Path`, the decoded path. -/
  Path : String
  /-- Result of `r.URL.EscapedPath()`: the path as it was sent when that is a valid
  encoding of `Path`, else the default encoding of `Path`. -/
  EscapedPath : String
  /-- Field `r.URL.RawQuery`. -/
  RawQuery : String
  /-- Field `r.RequestURI`, the unmodified request target. -/
  RequestURI : String
  /-- Result of `r.ProtoAtLeast(1, 1)`. -/
  ProtoAtLeast11 : Bool
  /-- The parser derives `r.URL` from the request target: the target `*` gives the
  path `*`, or for CONNECT (whose target is read as an authority) the empty path. -/
  target : RequestURI = "*" → Path = "*" ∨ Path = ""
  /-- The escaped path is an encoding of the path. -/
  encoded : unescape EscapedPath.data = some Path.data
  /-- The path of a request target is empty, `*`, or begins with a slash. -/
  rooted : EscapedPath = "" ∨ EscapedPath = "*" ∨ EscapedPath.data.head? = some '/'
deriving DecidableEq

/-! ## Response writers -/

/-- The `http.ResponseWriter` interface over an implementation state `σ`.
`Header()` hands out a mutable map in Go; here reading it is `Header` and
storing a changed map back is `storeHeader`.  `Write` returns the new state
together with Go's `(n int, err error)`. -/
structure ResponseWriter (σ : Type) where
  Header : σ → HelloServer.Header
  storeHeader : HelloServer.Header → σ → σ
  Write : String → σ → σ × Nat × Option String
  WriteHeader : Nat → σ → σ

/-- One call made through the `ResponseWriter` interface, with what it returned. -/
inductive Call where
  | Header
  | Write (p : String) (n : Nat) (err : Option String)
  | WriteHeader (code : Nat)
deriving DecidableEq, Repr

/-- A writer instrumented to log, in order, every interface call made on it. -/
def traced {σ : Type} (w : ResponseWriter σ) : ResponseWriter (σ × List Call) where
  Header := fun s => w.Header s.1
  storeHeader := fun h s => (w.storeHeader h s.1, s.2 ++ [Call.Header])
  Write := fun p s =>
    let r := w.Write p s.1
    ((r.1, s.2 ++ [Call.Write p r.2.1 r.2.2]), r.2.1, r.2.2)
  WriteHeader := fun code s => (w.WriteHeader code s.1, s.2 ++ [Call.WriteHeader code])

/-- The state of one response as the handler sees it: the header map, whether
the status line has been committed, the committed status, and the bytes handed
to `Write` so far.  It follows the documented `ResponseWriter` contract; what
the transport then puts on the wire is not part of it. -/
structure response where
  handlerHeader : Header
  wroteHeader : Bool
  status : Nat
  body : String
deriving DecidableEq, Repr

/-- A response on which nothing has been done yet. -/
def response.fresh : response :=
  { handlerHeader := [], wroteHeader := false, status := 0, body := "" }

/-- Go `WriteHeader`: the first call commits the status, later calls change nothing. -/
def response.WriteHeader (code : Nat) (w : response) : response :=
  if w.wroteHeader then w else { w with wroteHeader := true, status := code }

/-- Go `Write`: "If WriteHeader has not yet been called, Write calls
WriteHeader(http.StatusOK) before writing the data"; then the data is appended
and `(len(p), nil)` returned. -/
def response.Write (p : String) (w : response) : response × Nat × Option String :=
  let w1 := if w.wroteHeader then w else w.WriteHeader 200
  ({ w1 with body := w1.body ++ p }, p.utf8ByteSize, none)

/-- The `response` implementation of the `ResponseWriter` interface. -/
def response.writer : ResponseWriter response where
  Header := fun w => w.handlerHeader
  storeHeader := fun h w => { w with handlerHeader := h }
  Write := response.Write
  WriteHeader := response.WriteHeader

/-- What the server does when a handler returns (`finishRequest`): a handler that
wrote nothing still gets the implicit `WriteHeader(StatusOK)`. -/
def response.finishRequest (w : response) : response :=
  if w.wroteHeader then w else w.WriteHeader 200

/-! ## package fmt -/

/-- Go `fmt.Fprint(w, s)` for a single string operand: the operand is formatted
as itself into a buffer and the buffer is handed to `w.Write` in ONE call, whose
`(n, err)` is returned. -/
def Fprint {σ : Type} (w : ResponseWriter σ) (s : σ) (a : String) : σ × Nat × Option String :=
  w.Write a s

/-- Go `fmt.Fprintln(w, s)` for a single string operand: as `Fprint`, with a
newline appended to the buffer. -/
def Fprintln {σ : Type} (w : ResponseWriter σ) (s : σ) (a : String) : σ × Nat × Option String :=
  w.Write (a ++ "\n") s

/-! ## main.go: the handler -/

/-- `func helloHandler(w http.ResponseWriter, _ *http.Request)`, main.go:8-10.
The request pointer may be nil (`none`).  The body is the single statement
`fmt.Fprint(w, "Hello World")`, whose two results are dropped. -/
def helloHandler {σ : Type} (w : ResponseWriter σ) (s : σ) (_ : Option Request) : σ :=
  (Fprint w s "Hello World").1

/-! ## package path and package net: the string helpers the mux relies on -/

/-- Byte `s[i]` of a string given as its list of characters (only read in bounds). -/
def byteAt (s : List Char) (i : Nat) : Char := s.getD i '\x00'

/-- The backtracking loop of `path.Clean` on a `..` element, started after the
first `out.w--`: `for out.w > dotdot && out.index(out.w) != '/' { out.w-- }`.
It returns the final `out.w`. -/
def backtrack (buf : List Char) (dotdot : Nat) : Nat → Nat
  | 0 => 0
  | w + 1 =>
    if dotdot < w + 1 ∧ byteAt buf (w + 1) ≠ '/' then backtrack buf dotdot w else w + 1

/-- The main loop `for r < n { switch ... }` of Go `path.Clean`, with the read
index `r`, the output buffer `out` (whose length is `out.w`) and `dotdot`.  Every
round advances `r`, so `n - r + 1` rounds of fuel are enough. -/
def cleanLoop (path : List Char) (rooted : Bool) : Nat → Nat → List Char → Nat → List Char
  | 0, _, out, _ => out
  | fuel + 1, r, out, dotdot =>
    let n := path.length
    if r < n then
      if byteAt path r = '/' then
        -- empty path element
        cleanLoop path rooted fuel (r + 1) out dotdot
      else if byteAt path r = '.' ∧ (r + 1 = n ∨ byteAt path (r + 1) = '/') then
        -- . element
        cleanLoop path rooted fuel (r + 1) out dotdot
      else if byteAt path r = '.' ∧ byteAt path (r + 1) = '.' ∧
          (r + 2 = n ∨ byteAt path (r + 2) = '/') then
        -- .. element: remove to last /
        if dotdot < out.length then
          cleanLoop path rooted fuel (r + 2)
            (out.take (backtrack out dotdot (out.length - 1))) dotdot
        else if rooted = false then
          let out1 := if 0 < out.length then out ++ ['/'] else out
          let out2 := out1 ++ ['.', '.']
          cleanLoop path rooted fuel (r + 2) out2 out2.length
        else
          cleanLoop path rooted fuel (r + 2) out dotdot
      else
        -- real path element: add slash if needed, then copy the element
        let out1 :=
          if (rooted = true ∧ out.length ≠ 1) ∨ (rooted = false ∧ out.length ≠ 0)
          then out ++ ['/'] else out
        let elem := (path.drop r).takeWhile (fun c => c ≠ '/')
        cleanLoop path rooted fuel (r + elem.length) (out1 ++ elem) dotdot
    else out

/-- Go `path.Clean`: the shortest path name equivalent to `path` by purely
lexical processing. -/
def Clean (path : List Char) : List Char :=
  if path = [] then ['.']
  else
    let rooted : Bool := byteAt path 0 = '/'
    let out :=
      if rooted then cleanLoop path rooted (path.length + 1) 1 ['/'] 1
      else cleanLoop path rooted (path.length + 1) 0 [] 0
    if out.length = 0 then ['.'] else out

/-- Go `net/http.cleanPath`: the canonical path for `p`, eliminating `.` and
`..` elements and repeated slashes, keeping a trailing slash. -/
def cleanPath (p : String) : String :=
  if p = "" then "/"
  else
    let p1 : List Char := if byteAt p.data 0 ≠ '/' then '/' :: p.data else p.data
    let np := Clean p1
    -- path.Clean removes trailing slash except for root;
    -- put the trailing slash back if necessary.
    if p1.getLast? = some '/' ∧ np ≠ ['/'] then
      if p1.length = np.length + 1 ∧ np.isPrefixOf p1 then String.mk p1
      else String.mk (np ++ ['/'])
    else String.mk np

/-- Index of the first occurrence of `c` in `s` (`IndexByteString`). -/
def indexByte (s : List Char) (c : Char) : Option Nat :=
  let i := s.indexOf c
  if i < s.length then some i else none

/-- Index of the last occurrence of `c` in `s` (`last` of package net). -/
def lastByte (s : List Char) (c : Char) : Option Nat :=
  match indexByte s.reverse c with
  | some k => some (s.length - 1 - k)
  | none => none

/-- The two closing checks of `net.SplitHostPort` (no `[` from position `j`, no
`]` from position `k`) and the final split after the colon at `i`. -/
def splitTail (hp host : List Char) (i j k : Nat) : Except String (String × String) :=
  if (indexByte (hp.drop j) '[').isSome then Except.error "unexpected '[' in address"
  else if (indexByte (hp.drop k) ']').isSome then Except.error "unexpected ']' in address"
  else Except.ok (String.mk host, String.mk (hp.drop (i + 1)))

/-- Go `net.SplitHostPort`: splits "host:port", "[host]:port" into host and port. -/
def SplitHostPort (hostport : String) : Except String (String × String) :=
  let hp := hostport.data
  -- The port starts after the last colon.
  match lastByte hp ':' with
  | none => Except.error "missing port in address"
  | some i =>
    if byteAt hp 0 = '[' then
      -- Expect the first ']' just before the last ':'.
      match indexByte hp ']' with
      | none => Except.error "missing ']' in address"
      | some e =>
        if e + 1 = hp.length then Except.error "missing port in address"
        else if e + 1 = i then splitTail hp ((hp.take e).drop 1) i 1 (e + 1)
        else if byteAt hp (e + 1) = ':' then Except.error "too many colons in address"
        else Except.error "missing port in address"
    else
      let host := hp.take i
      if (indexByte host ':').isSome then Except.error "too many colons in address"
      else splitTail hp host i 0 0

/-- Go `net/http.stripHostPort`: the host without any trailing ":port". -/
def stripHostPort (h : String) : String :=
  -- If no port on host, return unchanged
  if (indexByte h.data ':').isNone then h
  else
    match SplitHostPort h with
    | Except.error _ => h -- on error, return unchanged
    | Except.ok hp => hp.1

/-! ## package net/http: handlers and the request multiplexer

The multiplexer routes segment by segment on the escaped request path, as the
current `ServeMux` does.  Patterns are those of the kind `main` registers: a
path of literal segments, optionally below a host and optionally ending in a
slash (a subtree); patterns with a method or with wildcards are not given their
meaning here. -/

/-- The `http.Handler` values of this program: the one user function wrapped by
`HandlerFunc`, and the library handlers the mux can answer with. -/
inductive Handler where
  /-- Value `HandlerFunc(helloHandler)`. -/
  | helloHandler
  /-- Value `NotFoundHandler()`. -/
  | NotFoundHandler
  /-- Value `RedirectHandler(url, code)`. -/
  | RedirectHandler (url : String) (code : Nat)
deriving DecidableEq, Repr

/-- Go `http.StatusOK`. -/
def StatusOK : Nat := 200

/-- Go `http.StatusMovedPermanently`. -/
def StatusMovedPermanently : Nat := 301

/-- Go `http.StatusTemporaryRedirect`. -/
def StatusTemporaryRedirect : Nat := 307

/-- Go `http.StatusBadRequest`. -/
def StatusBadRequest : Nat := 400

/-- Go `http.StatusNotFound`. -/
def StatusNotFound : Nat := 404

/-- Go `http.StatusText` for the codes the mux answers with. -/
def StatusText (code : Nat) : String :=
  if code = 200 then "OK"
  else if code = 301 then "Moved Permanently"
  else if code = 307 then "Temporary Redirect"
  else if code = 400 then "Bad Request"
  else if code = 404 then "Not Found"
  else ""

/-- Go `http.Error`: plain-text error reply with the given status. -/
def Error {σ : Type} (w : ResponseWriter σ) (s : σ) (error : String) (code : Nat) : σ :=
  let h := w.Header s
  let h := h.Set "Content-Type" "text/plain; charset=utf-8"
  let h := h.Set "X-Content-Type-Options" "nosniff"
  let s := w.storeHeader h s
  let s := w.WriteHeader code s
  (Fprintln w s error).1

/-- Go `http.NotFound`. -/
def NotFound {σ : Type} (w : ResponseWriter σ) (s : σ) (_ : Request) : σ :=
  Error w s "404 page not found" StatusNotFound

/-- Go `hexEscapeNonASCII`: bytes from 0x80 on become `%XX`. -/
def hexEscapeNonASCII : List Char → List Char
  | [] => []
  | c :: rest =>
    if 128 ≤ c.toNat then
      '%' :: upperhex (c.toNat / 16 % 16) :: upperhex (c.toNat % 16) :: hexEscapeNonASCII rest
    else c :: hexEscapeNonASCII rest

/-- Go `htmlEscape`: the five characters `&<>"` and the apostrophe are replaced. -/
def htmlEscape : List Char → List Char
  | [] => []
  | c :: rest =>
    (if c = '&' then "&amp;".data
     else if c = '<' then "&lt;".data
     else if c = '>' then "&gt;".data
     else if c = '"' then "&#34;".data
     else if c = '\x27' then "&#39;".data
     else [c]) ++ htmlEscape rest

/-- Go `http.Redirect` for a `url` without scheme and host, which is what the
mux passes: a relative `url` is made absolute against the request path, the
path part is cleaned with its trailing slash kept, `Location` is set, a GET or
HEAD request gets the HTML content type unless one was set, the status is
written, and a GET request gets the short HTML note as body. -/
def Redirect {σ : Type} (w : ResponseWriter σ) (s : σ) (r : Request) (url : String)
    (code : Nat) : σ :=
  let oldpath := if r.Path = "" then "/".data else r.Path.data
  -- make relative path absolute
  let u : List Char :=
    if byteAt url.data 0 ≠ '/' ∨ url = "" then
      (oldpath.reverse.dropWhile (fun c => c ≠ '/')).reverse ++ url.data
    else url.data
  let upath := u.takeWhile (fun c => c ≠ '?')
  let query := u.dropWhile (fun c => c ≠ '?')
  -- clean up but preserve trailing slash
  let cleaned := Clean upath
  let cleaned :=
    if upath.getLast? = some '/' ∧ cleaned.getLast? ≠ some '/' then cleaned ++ ['/'] else cleaned
  let url1 := cleaned ++ query
  let h := w.Header s
  let hadCT := h.has "Content-Type"
  let h := h.Set "Location" (String.mk (hexEscapeNonASCII url1))
  let h := if hadCT = false ∧ (r.Method = "GET" ∨ r.Method = "HEAD") then
      h.Set "Content-Type" "text/html; charset=utf-8" else h
  let s := w.storeHeader h s
  let s := w.WriteHeader code s
  -- Shouldn't send the body for POST or HEAD; that leaves GET.
  if hadCT = false ∧ r.Method = "GET" then
    (Fprintln w s
      ("<a href=\"" ++ String.mk (htmlEscape url1) ++ "\">" ++ StatusText code ++ "</a>.\n")).1
  else s

/-- Method `ServeHTTP` of each handler value. -/
def Handler.ServeHTTP {σ : Type} (h : Handler) (w : ResponseWriter σ) (s : σ) (r : Request) : σ :=
  match h with
  | Handler.helloHandler => HelloServer.helloHandler w s (some r)
  | Handler.NotFoundHandler => NotFound w s r
  | Handler.RedirectHandler url code => Redirect w s r url code

/-- A registered pattern with its handler (Go `muxEntry`). -/
structure muxEntry where
  h : Handler
  pattern : String
deriving DecidableEq, Repr

/-- The registrations of a `ServeMux`: the table `m` from pattern to entry, the
entries `es` whose pattern ends in `/` sorted from longest to shortest, and
whether any pattern contains a host name. -/
structure ServeMux where
  m : List muxEntry
  es : List muxEntry
  hosts : Bool
deriving DecidableEq, Repr

/-- The zero `ServeMux`, which is what `DefaultServeMux` is at program start. -/
def ServeMux.empty : ServeMux := { m := [], es := [], hosts := false }

/-- Table lookup `mux.m[key]`. -/
def ServeMux.lookup (mux : ServeMux) (key : String) : Option muxEntry :=
  mux.m.find? (fun e => e.pattern = key)

/-- Insert `e` before the first entry with a shorter pattern (`appendSorted`). -/
def appendSorted (es : List muxEntry) (e : muxEntry) : List muxEntry :=
  es.takeWhile (fun x => ¬ x.pattern.utf8ByteSize < e.pattern.utf8ByteSize) ++ e ::
    es.dropWhile (fun x => ¬ x.pattern.utf8ByteSize < e.pattern.utf8ByteSize)

/-- Go `(*ServeMux).Handle` for a non-nil handler; a panic is an `error`. -/
def ServeMux.Handle (mux : ServeMux) (pattern : String) (handler : Handler) :
    Except String ServeMux :=
  if pattern = "" then Except.error "http: invalid pattern"
  else if (mux.lookup pattern).isSome then
    Except.error ("http: multiple registrations for " ++ pattern)
  else
    let e : muxEntry := { h := handler, pattern := pattern }
    Except.ok
      { m := e :: mux.m
        es := if pattern.data.getLast? = some '/' then appendSorted mux.es e else mux.es
        hosts := if byteAt pattern.data 0 ≠ '/' then true else mux.hosts }

/-- Go `pathUnescape`: like `url.PathUnescape`, but an invalidly escaped string
is used as it stands. -/
def pathUnescape (seg : List Char) : List Char :=
  match unescape seg with
  | some t => t
  | none => seg

/-- Go `firstSegment`: splits a path into its first segment, unescaped, and
the rest; the path must begin with a slash, which is dropped.  The path `/`
gives the segment `/`. -/
def firstSegment (path : List Char) : List Char × List Char :=
  if path = ['/'] then (['/'], [])
  else
    let p := path.drop 1 -- drop initial slash
    (pathUnescape (p.takeWhile (fun c => c ≠ '/')), p.dropWhile (fun c => c ≠ '/'))

/-- The host part of a pattern: what stands before its first slash. -/
def patternHost (pattern : String) : List Char :=
  pattern.data.takeWhile (fun c => c ≠ '/')

/-- The segments of the path part of a pattern (`parsePattern`): each literal
segment unescaped; a trailing slash is not a segment, it makes the pattern a
subtree pattern.  One round per segment, so the length as fuel is enough. -/
def patternSegments : Nat → List Char → List (List Char)
  | 0, _ => []
  | fuel + 1, rest =>
    if rest = [] then []
    else
      let rest1 := rest.drop 1
      if rest1 = [] then []
      else
        pathUnescape (rest1.takeWhile (fun c => c ≠ '/')) ::
          patternSegments fuel (rest1.dropWhile (fun c => c ≠ '/'))

/-- Go `(*routingNode).matchPath` along one pattern: the literal segments must
equal the segments of the path one by one; at their end an exact pattern wants
the path used up, a subtree pattern (`multi`) takes whatever is left, which
must be something. -/
def matchPath (multi : Bool) : List (List Char) → List Char → Bool
  | [], path => if path = [] then !multi else multi
  | seg :: segs, path =>
    if path = [] then false
    else if (firstSegment path).1 = seg then matchPath multi segs (firstSegment path).2
    else false

/-- Whether the entry matches `path` for requests to `host`. -/
def muxEntry.matches_ (e : muxEntry) (host : String) (path : String) : Bool :=
  let pathPart := e.pattern.data.dropWhile (fun c => c ≠ '/')
  (patternHost e.pattern = host.data) &&
    matchPath (decide (e.pattern.data.getLast? = some '/'))
      (patternSegments pathPart.length pathPart) path.data

/-- Routing among the patterns registered for one host: a pattern that matches
the whole path wins, else the longest subtree pattern. -/
def ServeMux.matchHost (mux : ServeMux) (host path : String) : Option muxEntry :=
  match mux.m.find? (fun e => e.pattern.data.getLast? ≠ some '/' ∧ e.matches_ host path) with
  | some e => some e
  | none => mux.es.find? (fun e => e.matches_ host path)

/-- Go `(*routingNode).match`: patterns for the host of the request come first,
then the patterns without a host.  (No pattern has a method here.) -/
def ServeMux.match_ (mux : ServeMux) (host _method path : String) : Option muxEntry :=
  let n := if host ≠ "" then mux.matchHost host path else none
  match n with
  | some e => some e
  | none => mux.matchHost "" path

/-- Go `exactMatch`: whether the match is of the whole path rather than of a
prefix by a subtree pattern. -/
def exactMatch (n : Option muxEntry) (path : String) : Bool :=
  match n with
  | none => false
  | some e =>
    -- If there is no multi, the match is exact.
    if e.pattern.data.getLast? ≠ some '/' then true
    -- If the path doesn't end in a trailing slash, then the multi match is non-empty.
    else if path ≠ "" ∧ path.data.getLast? ≠ some '/' then false
    else
      -- segments of the pattern, the trailing one included, against the slashes of the path
      let pathPart := e.pattern.data.dropWhile (fun c => c ≠ '/')
      decide ((patternSegments pathPart.length pathPart).length + 1 = path.data.count '/')

/-- Go `(*ServeMux).matchOrRedirect`: the match for the path and, when `u` (the
request path) is given and there is no exact match but one for the path with a
slash added, the path to redirect to. -/
def ServeMux.matchOrRedirect (mux : ServeMux) (host method path : String)
    (u : Option String) : Option muxEntry × Option String :=
  let n := mux.match_ host method path
  match u with
  | some upath =>
    if ¬ exactMatch n path ∧ path.data.getLast? ≠ some '/' ∧
        exactMatch (mux.match_ host method (path ++ "/")) (path ++ "/") then
      (none, some (cleanPath upath ++ "/"))
    else (n, none)
  | none => (n, none)

/-- Go `(*ServeMux).findHandler`: the handler to use for the request,
consulting `r.Method`, `r.Host` and the escaped `r.URL` path. -/
def ServeMux.findHandler (mux : ServeMux) (r : Request) : HelloServer.Handler :=
  let escapedPath := r.EscapedPath
  -- CONNECT requests are not canonicalized.
  if r.Method = "CONNECT" then
    -- the /tree -> /tree/ redirect applies to CONNECT requests
    -- but the path canonicalization does not.
    match (mux.matchOrRedirect r.URLHost r.Method escapedPath (some r.Path)).2 with
    | some u => Handler.RedirectHandler (URLString u r.RawQuery) StatusTemporaryRedirect
    | none =>
      -- Redo the match, this time with r.Host instead of r.URL.Host.
      match (mux.matchOrRedirect r.Host r.Method escapedPath none).1 with
      | some e => e.h
      | none => Handler.NotFoundHandler
  else
    -- All other requests have any port stripped and path cleaned
    -- before passing to mux.handler.
    let host := stripHostPort r.Host
    let path := cleanPath escapedPath
    -- If the given path is /tree and its handler is not registered,
    -- redirect for /tree/.
    match mux.matchOrRedirect host r.Method path (some r.Path) with
    | (_, some u) => Handler.RedirectHandler (URLString u r.RawQuery) StatusTemporaryRedirect
    | (n, none) =>
      if path ≠ escapedPath then
        -- Redirect to cleaned path.
        Handler.RedirectHandler (URLString path r.RawQuery) StatusTemporaryRedirect
      else
        match n with
        | some e => e.h
        | none => Handler.NotFoundHandler

/-- Go `(*ServeMux).Handler`: the handler to use for the given request. -/
def ServeMux.Handler (mux : ServeMux) (r : Request) : HelloServer.Handler :=
  mux.findHandler r

/-- The handler that `(*ServeMux).ServeHTTP` invokes for `r`, if it invokes one:
none for the request target `*`, which is answered without any handler. -/
def ServeMux.dispatch (mux : ServeMux) (r : Request) : Option HelloServer.Handler :=
  if r.RequestURI = "*" then none else some (mux.findHandler r)

/-- Go `(*ServeMux).ServeHTTP`: dispatch the request to the handler whose
pattern most closely matches the request URL. -/
def ServeMux.ServeHTTP {σ : Type} (mux : ServeMux) (w : ResponseWriter σ) (s : σ)
    (r : Request) : σ :=
  if r.RequestURI = "*" then
    let s := if r.ProtoAtLeast11 then w.storeHeader ((w.Header s).Set "Connection" "close") s
      else s
    w.WriteHeader StatusBadRequest s
  else
    (mux.findHandler r).ServeHTTP w s r

/-! ## The process: standard streams, the default mux, the listener -/

/-- An observable action of the process, in the order in which it happens. -/
inductive Effect where
  /-- A pattern with its handler has been added to `DefaultServeMux`. -/
  | Registered (pattern : String) (handler : Handler)
  /-- Bytes written to standard output. -/
  | Stdout (bytes : String)
  /-- Call of `http.ListenAndServe(addr, handler)`; `none` is the nil handler. -/
  | ListenAndServe (addr : String) (handler : Option Handler)
  /-- The bind attempt `net.Listen(network, addr)` made inside `ListenAndServe`. -/
  | Listen (network : String) (addr : String)
deriving DecidableEq, Repr

/-- The state of the running process. -/
structure Process where
  /-- Package variable `http.DefaultServeMux`. -/
  DefaultServeMux : ServeMux
  /-- Everything written to standard output so far. -/
  stdout : String
  /-- Everything written to standard error so far. -/
  stderr : String
  /-- The actions performed so far, oldest first. -/
  effects : List Effect
  /-- The requests served so far, each with the response produced for it. -/
  served : List (Request × response)
deriving DecidableEq

/-- The process at entry to `main`: empty default mux, nothing written. -/
def Process.start : Process :=
  { DefaultServeMux := ServeMux.empty, stdout := "", stderr := "", effects := [], served := [] }

/-- What the outside world does to the listener: whether `net.Listen` fails (and
with which operating-system error), which requests arrive once the port is bound,
and whether `Serve` eventually gives up with an error or keeps accepting until the
process is killed. -/
structure Env where
  bindErr : Option String
  requests : List Request
  serveErr : Option String
deriving DecidableEq

/-- How a call ends: it returns a value, it never returns, or it panics. -/
inductive Res (α : Type) where
  | ret (a : α) (p : Process)
  | block (p : Process)
  | panic (msg : String) (p : Process)

/-- A Go statement acting on the process. -/
def Go (α : Type) : Type := Process → Res α

/-- Sequencing of statements: what follows a call runs only if the call returns. -/
def Go.bind {α β : Type} (x : Go α) (f : α → Go β) : Go β := fun p =>
  match x p with
  | Res.ret a p1 => f a p1
  | Res.block p1 => Res.block p1
  | Res.panic msg p1 => Res.panic msg p1

instance : Monad Go where
  pure := fun a p => Res.ret a p
  bind := Go.bind

/-- Go `http.HandleFunc(pattern, handler)`: registers the handler function for
the pattern in `DefaultServeMux`. -/
def HandleFunc (pattern : String) (handler : Handler) : Go Unit := fun p =>
  match p.DefaultServeMux.Handle pattern handler with
  | Except.error msg => Res.panic msg p
  | Except.ok mux =>
    Res.ret () { p with DefaultServeMux := mux
                        effects := p.effects ++ [Effect.Registered pattern handler] }

/-- Go `fmt.Println(s)` for a single string operand: writes the operand and a
newline to standard output and returns `(n, err)`. -/
def Println (a : String) : Go (Nat × Option String) := fun p =>
  let line := a ++ "\n"
  Res.ret (line.utf8ByteSize, none)
    { p with stdout := p.stdout ++ line, effects := p.effects ++ [Effect.Stdout line] }

/-- Go `globalOptionsHandler.ServeHTTP`, the server's answer to `OPTIONS *`. -/
def globalOptionsHandler {σ : Type} (w : ResponseWriter σ) (s : σ) (_ : Request) : σ :=
  w.storeHeader ((w.Header s).Set "Content-Length" "0") s

/-- Go `serverHandler.ServeHTTP` followed by `finishRequest`: one request served
on a response of its own, by `handler` or, when that is nil, by the default mux. -/
def serveRequest (handler : Option Handler) (mux : ServeMux) (r : Request) : response :=
  let w := response.fresh
  let w :=
    if r.RequestURI = "*" ∧ r.Method = "OPTIONS" then globalOptionsHandler response.writer w r
    else
      match handler with
      | none => mux.ServeHTTP response.writer w r
      | some h => h.ServeHTTP response.writer w r
  w.finishRequest

/-- Go `http.ListenAndServe(addr, handler)`: listens on the TCP network address
and then serves the incoming requests.  It returns only with a non-nil error:
the one of a failed `net.Listen`, or the one that ends `Serve`. -/
def ListenAndServe (env : Env) (addr : String) (handler : Option Handler) : Go String := fun p =>
  let addr1 := if addr = "" then ":http" else addr
  let p := { p with effects := p.effects ++
                      [Effect.ListenAndServe addr handler, Effect.Listen "tcp" addr1] }
  match env.bindErr with
  | some err => Res.ret err p
  | none =>
    let p := { p with served := p.served ++
                        env.requests.map (fun r => (r, serveRequest handler p.DefaultServeMux r)) }
    match env.serveErr with
    | some err => Res.ret err p
    | none => Res.block p

/-! ## main.go: the program -/

/-- `func main()`, main.go:12-17.  The results of `fmt.Println` and the error
returned by `http.ListenAndServe` are not used. -/
def main (env : Env) : Go Unit := do
  HandleFunc "/hello" Handler.helloHandler

  let _ ← Println "Server is running on http://localhost:8080/hello"
  let _ ← ListenAndServe env ":8080" none
  pure ()

/-- How the process stands at the end of the observation. -/
inductive ExitStatus where
  /-- The process has exited with this code. -/
  | exited (code : Nat)
  /-- The process is still serving; only a signal from outside ends it. -/
  | serving
deriving DecidableEq, Repr

/-- The Go runtime around `main`: "when that function invocation returns, the
program exits", with status 0; a panic that is not recovered prints its message
to standard error and exits with status 2. -/
def run (env : Env) : Process × ExitStatus :=
  match main env Process.start with
  | Res.ret _ p => (p, ExitStatus.exited 0)
  | Res.block p => (p, ExitStatus.serving)
  | Res.panic msg p =>
    ({ p with stderr := p.stderr ++ "panic: " ++ msg ++ "\n" }, ExitStatus.exited 2)

/-- The route table `main` builds: `DefaultServeMux` when the listener starts. -/
def routes : ServeMux := (run { bindErr := none, requests := [], serveErr := none }).1.DefaultServeMux

/-- A request for `path` with the given method, as the server parses it from the
request line `method path HTTP/1.1` and the header `Host: host`, for a `path`
that begins with a slash and contains no escapes. -/
def Request.of (method host path : String)
    (e : unescape path.data = some path.data := by decide)
    (p : path.data.head? = some '/' := by decide) : Request :=
  { Method := method, Host := host, URLHost := "", Path := path, EscapedPath := path,
    RawQuery := "", RequestURI := path, ProtoAtLeast11 := true, target := Or.inl,
    encoded := e, rooted := Or.inr (Or.inr p) }

/-- A request whose path is sent in the escaped form `escaped`, with query
`query`, for an `escaped` that begins with a slash. -/
def Request.ofEscaped (method host escaped path query : String)
    (e : unescape escaped.data = some path.data := by decide)
    (p : escaped.data.head? = some '/' := by decide)
    (t : escaped ++ (if query = "" then "" else "?" ++ query) ≠ "*" := by decide) : Request :=
  { Method := method, Host := host, URLHost := "", Path := path, EscapedPath := escaped,
    RawQuery := query, RequestURI := escaped ++ (if query = "" then "" else "?" ++ query),
    ProtoAtLeast11 := true, target := fun h => absurd h t, encoded := e,
    rooted := Or.inr (Or.inr p) }

/-! ## Auxiliary definitions for the statements -/

/-- The startup line of `main`, with the newline `Println` adds. -/
def startupLine : String := "Server is running on http://localhost:8080/hello\n"

/-- A writer whose every `Write` fails: it reports `n` bytes written and the
error `err`; its state counts the write attempts made on it. -/
def failingWriter (n : Nat) (err : String) : ResponseWriter Nat where
  Header := fun _ => []
  storeHeader := fun _ s => s
  Write := fun _ s => (s + 1, n, some err)
  WriteHeader := fun _ s => s

/-- Whether an action is a write to standard output. -/
def Effect.isStdout : Effect → Bool
  | Effect.Stdout _ => true
  | _ => false

/-- The one segment of the pattern `/hello`. -/
def helloSeg : List Char := "hello".data

/-! ## Facts about escaped paths, cleaning and matching -/

/-- Unescaping a byte other than the percent sign keeps it. -/
theorem unescape_cons_ne (c : Char) (rest : List Char) (h : c ≠ '%') :
    unescape (c :: rest) = (unescape rest).map (fun t => c :: t) := by
  cases rest with
  | nil => simp [unescape, h]
  | cons a r2 =>
    cases r2 with
    | nil => simp [unescape, h]
    | cons b r3 => simp [unescape, h]

/-- Unescaping a percent sign followed by two bytes. -/
theorem unescape_pct (a b : Char) (rest : List Char) :
    unescape ('%' :: a :: b :: rest) =
      if ishex a ∧ ishex b then
        (unescape rest).map (fun t => Char.ofNat (unhex a * 16 + unhex b) :: t)
      else none := by
  simp [unescape]

/-- A percent sign at the end cannot be unescaped. -/
theorem unescape_pct_nil : unescape ['%'] = none := by
  simp [unescape]

/-- A percent sign before a single last byte cannot be unescaped. -/
theorem unescape_pct_one (a : Char) : unescape ['%', a] = none := by
  simp [unescape]

/-- Unescaping a string that begins with a slash keeps the slash. -/
theorem unescape_slash (seg : List Char) :
    unescape ('/' :: seg) = (unescape seg).map (fun t => '/' :: t) :=
  unescape_cons_ne '/' seg (by decide)

/-- A string that unescapes to one without a slash has no slash itself. -/
theorem unescape_no_slash : ∀ (n : Nat) (seg t : List Char), seg.length ≤ n →
    unescape seg = some t → (∀ c ∈ t, c ≠ '/') → ∀ c ∈ seg, c ≠ '/' := by
  intro n
  induction n with
  | zero =>
    intro seg t hn _ _ c hc
    have : seg = [] := List.length_eq_zero.mp (Nat.le_zero.mp hn)
    subst this
    simp at hc
  | succ n ih =>
    intro seg t hn hu ht c hc
    cases seg with
    | nil => simp at hc
    | cons a rest =>
      by_cases ha : a = '%'
      · subst ha
        match rest, hu, hn, hc with
        | [], hu, _, _ => rw [unescape_pct_nil] at hu; simp at hu
        | [_], hu, _, _ => rw [unescape_pct_one] at hu; simp at hu
        | x :: y :: rest2, hu, hn, hc =>
          rw [unescape_pct] at hu
          by_cases hxy : ishex x = true ∧ ishex y = true
          · simp only [hxy, and_self, if_true, Option.map_eq_some'] at hu
            obtain ⟨t2, ht2, rfl⟩ := hu
            have hlen : rest2.length ≤ n := by
              simp only [List.length_cons] at hn
              omega
            have ih2 := ih rest2 t2 hlen ht2 (fun c hc => ht c (List.mem_cons_of_mem _ hc))
            simp only [List.mem_cons] at hc
            rcases hc with h1 | h1 | h1 | h1
            · rw [h1]; decide
            · rw [h1]
              intro hx
              rw [hx] at hxy
              exact absurd hxy.1 (by decide)
            · rw [h1]
              intro hy
              rw [hy] at hxy
              exact absurd hxy.2 (by decide)
            · exact ih2 c h1
          · simp [hxy] at hu
      · rw [unescape_cons_ne a rest ha] at hu
        simp only [Option.map_eq_some'] at hu
        obtain ⟨t2, ht2, rfl⟩ := hu
        have hlen : rest.length ≤ n := by
          simp only [List.length_cons] at hn
          omega
        have ih2 := ih rest t2 hlen ht2 (fun c hc => ht c (List.mem_cons_of_mem _ hc))
        simp only [List.mem_cons] at hc
        rcases hc with h1 | h1
        · rw [h1]
          exact ht a (List.mem_cons_self _ _)
        · exact ih2 c h1

/-- The first byte of a string that unescapes to `a :: t` is `a` or a percent sign. -/
theorem unescape_head (seg t : List Char) (a : Char) (hu : unescape seg = some (a :: t)) :
    ∃ b rest, seg = b :: rest ∧ (b = a ∨ b = '%') := by
  cases seg with
  | nil => simp [unescape] at hu
  | cons b rest =>
    refine ⟨b, rest, rfl, ?_⟩
    by_cases hb : b = '%'
    · exact Or.inr hb
    · rw [unescape_cons_ne b rest hb] at hu
      simp only [Option.map_eq_some'] at hu
      obtain ⟨t2, _, h2⟩ := hu
      exact Or.inl (List.cons.inj h2).1

/-- Taking while no slash is met keeps a list that has no slash. -/
theorem takeWhile_no_slash (seg : List Char) (h : ∀ c ∈ seg, c ≠ '/') :
    seg.takeWhile (fun c => c ≠ '/') = seg := by
  induction seg with
  | nil => rfl
  | cons a rest ih =>
    have ha : a ≠ '/' := h a (List.mem_cons_self _ _)
    simp only [List.takeWhile_cons, ha, ne_eq, not_false_eq_true, decide_True, if_true]
    rw [show (fun c : Char => decide ¬ c = '/') = (fun c => decide (c ≠ '/')) from rfl,
      ih (fun c hc => h c (List.mem_cons_of_mem _ hc))]

/-- Dropping while no slash is met empties a list that has no slash. -/
theorem dropWhile_no_slash (seg : List Char) (h : ∀ c ∈ seg, c ≠ '/') :
    seg.dropWhile (fun c => c ≠ '/') = [] := by
  induction seg with
  | nil => rfl
  | cons a rest ih =>
    have ha : a ≠ '/' := h a (List.mem_cons_self _ _)
    simp only [List.dropWhile_cons, ha, ne_eq, not_false_eq_true, decide_True, if_true]
    exact ih (fun c hc => h c (List.mem_cons_of_mem _ hc))

/-- A list emptied by dropping while no slash is met has no slash. -/
theorem no_slash_of_dropWhile (seg : List Char) (h : seg.dropWhile (fun c => c ≠ '/') = []) :
    ∀ c ∈ seg, c ≠ '/' := by
  induction seg with
  | nil => intro c hc; simp at hc
  | cons a rest ih =>
    by_cases ha : a = '/'
    · subst ha
      simp [List.dropWhile_cons] at h
    · simp only [List.dropWhile_cons, ha, ne_eq, not_false_eq_true, decide_True, if_true] at h
      intro c hc
      simp only [List.mem_cons] at hc
      rcases hc with h1 | h1
      · rw [h1]; exact ha
      · exact ih h c h1

/-- The cleaning loop copies a single segment that is not a dot element. -/
theorem cleanLoop_single (a : Char) (t : List Char) (ha : a ≠ '/') (hd : a ≠ '.')
    (ht : ∀ c ∈ t, c ≠ '/') :
    ∀ f : Nat, cleanLoop ('/' :: a :: t) true (f + 1 + 1) 1 ['/'] 1 = '/' :: a :: t := by
  intro f
  have htw : (a :: t).takeWhile (fun c => c ≠ '/') = a :: t :=
    takeWhile_no_slash (a :: t) (by
      intro c hc
      simp only [List.mem_cons] at hc
      rcases hc with h1 | h1
      · rw [h1]; exact ha
      · exact ht c h1)
  have hb : byteAt ('/' :: a :: t) 1 = a := rfl
  have hlt : 1 < ('/' :: a :: t).length := by simp
  rw [cleanLoop]
  simp only [hlt, if_true, hb, ha, hd, if_false, false_and, List.length_cons, List.length_nil,
    List.drop_succ_cons, List.drop_zero, htw]
  simp only [Nat.zero_add, ne_eq, not_true_eq_false, and_false, Bool.true_eq_false, false_and,
    or_self, if_false, List.singleton_append]
  rw [cleanLoop]
  simp only [List.length_cons]
  rw [if_pos (by omega), if_neg (by omega)]

/-- Cleaning leaves a rooted single segment that is not a dot element as it is. -/
theorem Clean_single (a : Char) (t : List Char) (ha : a ≠ '/') (hd : a ≠ '.')
    (ht : ∀ c ∈ t, c ≠ '/') : Clean ('/' :: a :: t) = '/' :: a :: t := by
  have h := cleanLoop_single a t ha hd ht (t.length + 1)
  have hb : byteAt ('/' :: a :: t) 0 = '/' := rfl
  simp only [Clean, hb, List.length_cons, decide_True, if_true, h]
  simp

/-- The mux leaves an escaped path that encodes `/hello` as it is. -/
theorem cleanPath_single (a : Char) (t : List Char) (ha : a ≠ '/') (hd : a ≠ '.')
    (ht : ∀ c ∈ t, c ≠ '/') : cleanPath (String.mk ('/' :: a :: t)) = String.mk ('/' :: a :: t) := by
  have hc := Clean_single a t ha hd ht
  have hlast : ('/' :: a :: t).getLast? ≠ some '/' := by
    intro h
    have hm : '/' ∈ a :: t := by
      have h2 : (a :: t).getLast? = some '/' := by
        simpa [List.getLast?_cons_cons] using h
      exact List.mem_of_getLast?_eq_some h2
    simp only [List.mem_cons] at hm
    rcases hm with h1 | h1
    · exact ha h1.symm
    · exact ht _ h1 rfl
  have hne : String.mk ('/' :: a :: t) ≠ "" := by
    intro h
    have := congrArg String.data h
    simp at this
  simp only [cleanPath, hne, if_false, byteAt, List.getD_cons_zero, ne_eq, not_true_eq_false, hc,
    hlast, false_and]

/-- What an escaped path that encodes `/hello` looks like: a slash and one
segment without slash that unescapes to `hello` and begins with `h` or `%`. -/
theorem encodes_hello (e : List Char) (hu : unescape e = some "/hello".data)
    (hr : e = [] ∨ e = ['*'] ∨ e.head? = some '/') :
    ∃ a t, e = '/' :: a :: t ∧ a ≠ '/' ∧ a ≠ '.' ∧ (∀ c ∈ t, c ≠ '/') ∧
      unescape (a :: t) = some helloSeg := by
  rcases hr with h | h | h
  · subst h; simp [unescape] at hu
  · subst h; exfalso; revert hu; decide
  · cases e with
    | nil => simp at h
    | cons b seg =>
      simp only [List.head?_cons, Option.some.injEq] at h
      subst h
      rw [unescape_slash] at hu
      simp only [Option.map_eq_some'] at hu
      obtain ⟨t2, ht2, h2⟩ := hu
      have h3 : t2 = helloSeg := by
        have : '/' :: t2 = '/' :: helloSeg := h2
        exact (List.cons.inj this).2
      subst h3
      obtain ⟨a, t, hseg, hab⟩ := unescape_head seg "ello".data 'h' ht2
      subst hseg
      have hns := unescape_no_slash (a :: t).length (a :: t) helloSeg (Nat.le_refl _) ht2
        (by decide)
      refine ⟨a, t, rfl, hns a (List.mem_cons_self _ _), ?_,
        fun c hc => hns c (List.mem_cons_of_mem _ hc), ht2⟩
      rcases hab with h1 | h1 <;> rw [h1] <;> decide

/-- Matching a path against the pattern `/hello`: the path has one segment, which
unescapes to `hello`. -/
theorem matchPath_hello (path : List Char) :
    matchPath false [helloSeg] path =
      (decide (path ≠ []) && decide ((firstSegment path).1 = helloSeg) &&
        decide ((firstSegment path).2 = [])) := by
  by_cases hp : path = []
  · subst hp; simp [matchPath]
  · by_cases h1 : (firstSegment path).1 = helloSeg
    · simp [matchPath, hp, h1]
    · simp [matchPath, hp, h1]

/-- An escaped path that encodes `/hello` matches the pattern `/hello`. -/
theorem matchPath_of_encodes (a : Char) (t : List Char) (ha : a ≠ '/')
    (ht : ∀ c ∈ t, c ≠ '/') (hu : unescape (a :: t) = some helloSeg) :
    matchPath false [helloSeg] ('/' :: a :: t) = true := by
  have hall : ∀ c ∈ a :: t, c ≠ '/' := by
    intro c hc
    simp only [List.mem_cons] at hc
    rcases hc with h1 | h1
    · rw [h1]; exact ha
    · exact ht c h1
  have h1 : firstSegment ('/' :: a :: t) = (helloSeg, []) := by
    have htw := takeWhile_no_slash (a :: t) hall
    have hdw := dropWhile_no_slash (a :: t) hall
    simp only [firstSegment, List.drop_succ_cons, List.drop_zero]
    rw [htw, hdw]
    simp [pathUnescape, hu]
  rw [matchPath_hello, h1]
  simp

/-- A rooted escaped path that matches the pattern `/hello` encodes the path `/hello`. -/
theorem encodes_of_matchPath (e p : List Char) (hu : unescape e = some p)
    (hr : e = [] ∨ e = ['*'] ∨ e.head? = some '/')
    (hm : matchPath false [helloSeg] e = true) : p = "/hello".data := by
  rw [matchPath_hello] at hm
  simp only [Bool.and_eq_true, decide_eq_true_eq] at hm
  obtain ⟨⟨hne, h1⟩, h2⟩ := hm
  rcases hr with h | h | h
  · exact absurd h hne
  · subst h; exfalso; revert h1; decide
  · cases e with
    | nil => simp at h
    | cons b seg =>
      simp only [List.head?_cons, Option.some.injEq] at h
      subst h
      rw [unescape_slash] at hu
      simp only [Option.map_eq_some'] at hu
      obtain ⟨t2, ht2, hp⟩ := hu
      by_cases hs : seg = []
      · subst hs; exfalso; revert h1; decide
      · have hne2 : ('/' :: seg) ≠ ['/'] := by
          intro h; exact hs (List.cons.inj h).2
        simp only [firstSegment, hne2, if_false, List.drop_succ_cons, List.drop_zero] at h1 h2
        have hall := no_slash_of_dropWhile seg h2
        rw [takeWhile_no_slash seg hall] at h1
        simp only [pathUnescape, ht2] at h1
        subst h1
        rw [← hp]
        rfl

/-- A path with a slash added never matches the pattern `/hello`. -/
theorem matchPath_append_slash (path : List Char) :
    matchPath false [helloSeg] (path ++ ['/']) = false := by
  rw [matchPath_hello]
  cases path with
  | nil => decide
  | cons a t =>
    have hne2 : (a :: t ++ ['/']) ≠ ['/'] := by
      intro h
      have := congrArg List.length h
      simp at this
    have h2 : (firstSegment (a :: t ++ ['/'])).2 ≠ [] := by
      simp only [firstSegment, hne2, if_false, List.cons_append, List.drop_succ_cons,
        List.drop_zero]
      simp
    have h3 : (firstSegment (a :: (t ++ ['/']))).2 ≠ [] := h2
    simp [h3]

/-! ## Facts about the route table -/

/-- The route table of `main` holds the one exact pattern `/hello`. -/
theorem routes_eq :
    routes = { m := [{ h := Handler.helloHandler, pattern := "/hello" }], es := [], hosts := false } := by
  decide

/-- The entry of the route table matches, for any host, the paths that match `/hello`. -/
theorem hello_entry_matches (host path : String) :
    muxEntry.matches_ { h := Handler.helloHandler, pattern := "/hello" } host path =
      (decide (host = "") && matchPath false [helloSeg] path.data) := by
  have h1 : patternHost "/hello" = [] := by decide
  have h2 : ("/hello" : String).data.getLast? ≠ some '/' := by decide
  have h3 : patternSegments
      (("/hello" : String).data.dropWhile (fun c => c ≠ '/')).length
      (("/hello" : String).data.dropWhile (fun c => c ≠ '/')) = [helloSeg] := by decide
  have h4 : (([] : List Char) = host.data) = (host = "") := by
    apply propext
    constructor
    · intro h; exact String.ext h.symm
    · intro h; rw [h]
  simp only [muxEntry.matches_, h1, h2, h3, h4, decide_False]

/-- What the route table matches: `/hello` for the paths of one segment that
unescapes to `hello`, nothing else. -/
theorem match_routes (host method path : String) :
    routes.match_ host method path =
      if matchPath false [helloSeg] path.data = true then
        some { h := Handler.helloHandler, pattern := "/hello" }
      else none := by
  have h2 : ("/hello" : String).data.getLast? ≠ some '/' := by decide
  rw [routes_eq]
  by_cases hh : host = ""
  · by_cases hm : matchPath false [helloSeg] path.data = true
    · simp [ServeMux.match_, ServeMux.matchHost, hello_entry_matches, hh, hm, h2]
    · simp [ServeMux.match_, ServeMux.matchHost, hello_entry_matches, hh, hm, h2]
  · by_cases hm : matchPath false [helloSeg] path.data = true
    · simp [ServeMux.match_, ServeMux.matchHost, hello_entry_matches, hh, hm, h2]
    · simp [ServeMux.match_, ServeMux.matchHost, hello_entry_matches, hh, hm, h2]

/-- The trailing-slash redirect never applies to the route table of `main`. -/
theorem matchOrRedirect_routes (host method path : String) (u : Option String) :
    routes.matchOrRedirect host method path u = (routes.match_ host method path, none) := by
  cases u with
  | none => rfl
  | some upath =>
    have h1 : routes.match_ host method (path ++ "/") = none := by
      rw [match_routes]
      have : (path ++ "/").data = path.data ++ ['/'] := rfl
      rw [this, matchPath_append_slash]
      simp
    simp [ServeMux.matchOrRedirect, h1, exactMatch]

/-- The handler the route table selects for any request. -/
theorem findHandler_routes (r : Request) :
    routes.findHandler r =
      if r.Method = "CONNECT" then
        (if matchPath false [helloSeg] r.EscapedPath.data = true then Handler.helloHandler
         else Handler.NotFoundHandler)
      else if cleanPath r.EscapedPath ≠ r.EscapedPath then
        Handler.RedirectHandler (URLString (cleanPath r.EscapedPath) r.RawQuery)
          StatusTemporaryRedirect
      else (if matchPath false [helloSeg] r.EscapedPath.data = true then Handler.helloHandler
            else Handler.NotFoundHandler) := by
  by_cases hc : r.Method = "CONNECT"
  · by_cases hm : matchPath false [helloSeg] r.EscapedPath.data = true
    · simp [ServeMux.findHandler, matchOrRedirect_routes, match_routes, hc, hm]
    · simp [ServeMux.findHandler, matchOrRedirect_routes, match_routes, hc, hm]
  · by_cases hp : cleanPath r.EscapedPath = r.EscapedPath
    · by_cases hm : matchPath false [helloSeg] r.EscapedPath.data = true
      · simp [ServeMux.findHandler, matchOrRedirect_routes, match_routes, hc, hp, hm]
      · simp [ServeMux.findHandler, matchOrRedirect_routes, match_routes, hc, hp, hm]
    · simp [ServeMux.findHandler, matchOrRedirect_routes, match_routes, hc, hp]

/-- A request for the path `/hello` does not have the target `*`. -/
theorem target_ne_star (r : Request) (h : r.Path = "/hello") : r.RequestURI ≠ "*" := by
  intro hs
  rcases r.target hs with h1 | h1 <;> rw [h] at h1 <;> revert h1 <;> decide

/-- The escaped path of a request, as a list, is empty, `*`, or begins with a slash. -/
theorem rooted_data (r : Request) :
    r.EscapedPath.data = [] ∨ r.EscapedPath.data = ['*'] ∨ r.EscapedPath.data.head? = some '/' := by
  rcases r.rooted with h | h | h
  · left; rw [h]
  · right; left; rw [h]
  · right; right; exact h

/-- The escaped path of a request for `/hello` is clean and matches the pattern `/hello`. -/
theorem hello_request_routed (r : Request) (h : r.Path = "/hello") :
    cleanPath r.EscapedPath = r.EscapedPath ∧
    matchPath false [helloSeg] r.EscapedPath.data = true := by
  have hu : unescape r.EscapedPath.data = some "/hello".data := by
    rw [r.encoded, h]
  obtain ⟨a, t, he, ha, hd, ht, hu2⟩ := encodes_hello r.EscapedPath.data hu (rooted_data r)
  have hs : r.EscapedPath = String.mk ('/' :: a :: t) := String.ext he
  refine ⟨?_, ?_⟩
  · rw [hs]; exact cleanPath_single a t ha hd ht
  · rw [he]; exact matchPath_of_encodes a t ha ht hu2

/-- The escaped path of a request for another path does not match the pattern `/hello`. -/
theorem other_request_unmatched (r : Request) (h : r.Path ≠ "/hello") :
    ¬ matchPath false [helloSeg] r.EscapedPath.data = true := by
  intro hm
  have := encodes_of_matchPath r.EscapedPath.data r.Path.data r.encoded (rooted_data r) hm
  exact h (String.ext this)

/-- A redirect written on a fresh response commits the given status. -/
theorem Redirect_status (r : Request) (url : String) (code : Nat) :
    (Redirect response.writer response.fresh r url code).status = code := by
  by_cases hg : r.Method = "GET"
  · simp [Redirect, response.writer, response.fresh, response.WriteHeader, Fprintln,
      response.Write, Header.has, hg]
  · simp [Redirect, response.writer, response.fresh, response.WriteHeader, Fprintln,
      response.Write, Header.has, hg]

/-! ## Claims -/

/-- C1: for every method and every request whose path is exactly `/hello`,
dispatching the request through the route table built by `main` invokes
`helloHandler` and yields status 200 with a body that is exactly the 11 ASCII
bytes `Hello World`, nothing before or after and no trailing newline. -/
theorem hello_route_ok (r : Request) (h : r.Path = "/hello") :
    routes.dispatch r = some Handler.helloHandler ∧
    (routes.ServeHTTP response.writer response.fresh r).status = 200 ∧
    (routes.ServeHTTP response.writer response.fresh r).body = "Hello World" ∧
    (routes.ServeHTTP response.writer response.fresh r).body.utf8ByteSize = 11 ∧
    (routes.ServeHTTP response.writer response.fresh r).body.data.all (fun c => c.toNat < 128) = true := by
  have hs := target_ne_star r h
  obtain ⟨hc, hm⟩ := hello_request_routed r h
  have hH : routes.findHandler r = Handler.helloHandler := by
    rw [findHandler_routes]
    simp [hc, hm]
  have hr : routes.ServeHTTP response.writer response.fresh r =
      helloHandler response.writer response.fresh none := by
    simp [ServeMux.ServeHTTP, hs, hH, Handler.ServeHTTP]
    rfl
  rw [hr]
  refine ⟨?_, ?_, ?_, ?_, ?_⟩
  · simp [ServeMux.dispatch, hs, hH]
  · decide
  · decide
  · decide
  · decide

/-- Witness for C1: a HEAD request for `/hello`. -/
theorem hello_route_ok_witness :
    (Request.of "HEAD" "localhost:8080" "/hello").Path = "/hello" ∧
    routes.dispatch (Request.of "HEAD" "localhost:8080" "/hello") = some Handler.helloHandler ∧
    (routes.ServeHTTP response.writer response.fresh
      (Request.of "HEAD" "localhost:8080" "/hello")).status = 200 ∧
    (routes.ServeHTTP response.writer response.fresh
      (Request.of "HEAD" "localhost:8080" "/hello")).body = "Hello World" :=
  ⟨rfl, (hello_route_ok (Request.of "HEAD" "localhost:8080" "/hello") rfl).1,
    (hello_route_ok (Request.of "HEAD" "localhost:8080" "/hello") rfl).2.1,
    (hello_route_ok (Request.of "HEAD" "localhost:8080" "/hello") rfl).2.2.1⟩

/-- C2, as stated, fails: `GET //hello` and `GET /hello/../hello` have a path
different from `/hello`, yet the route table answers them with a redirect to
`/hello` (status 307), not with 404. -/
theorem uncleaned_path_not_404 :
    (Request.of "GET" "localhost:8080" "//hello").Path ≠ "/hello" ∧
    (routes.ServeHTTP response.writer response.fresh
      (Request.of "GET" "localhost:8080" "//hello")).status = 307 ∧
    (routes.ServeHTTP response.writer response.fresh
      (Request.of "GET" "localhost:8080" "//hello")).status ≠ 404 ∧
    (Request.of "GET" "localhost:8080" "/hello/../hello").Path ≠ "/hello" ∧
    (routes.ServeHTTP response.writer response.fresh
      (Request.of "GET" "localhost:8080" "/hello/../hello")).status = 307 ∧
    (routes.ServeHTTP response.writer response.fresh
      (Request.of "GET" "localhost:8080" "/hello/../hello")).status ≠ 404 := by
  decide

/-- C2, amended: for every method and every request whose path is not `/hello`,
dispatching through the route table of `main` never invokes `helloHandler`.  For
a request target other than `*`, the answer is the default not-found response
(status 404, body `404 page not found`) when the path as sent is already in
cleaned form or the method is CONNECT; a path that is not in cleaned form is,
for every other method, answered with status 307 (a redirect) instead. -/
theorem other_paths_not_served (r : Request) (h : r.Path ≠ "/hello") :
    routes.dispatch r ≠ some Handler.helloHandler ∧
    (r.RequestURI ≠ "*" →
      (routes.ServeHTTP response.writer response.fresh r).status =
        (if r.Method = "CONNECT" ∨ cleanPath r.EscapedPath = r.EscapedPath then 404 else 307)) ∧
    (r.RequestURI ≠ "*" → (r.Method = "CONNECT" ∨ cleanPath r.EscapedPath = r.EscapedPath) →
      routes.dispatch r = some Handler.NotFoundHandler ∧
      routes.ServeHTTP response.writer response.fresh r =
        NotFound response.writer response.fresh r) ∧
    (NotFound response.writer response.fresh r).status = 404 ∧
    (NotFound response.writer response.fresh r).body = "404 page not found\n" := by
  have hm := other_request_unmatched r h
  have hH := findHandler_routes r
  simp only [hm, if_false] at hH
  refine ⟨?_, ?_, ?_, rfl, rfl⟩
  · by_cases hs : r.RequestURI = "*"
    · simp [ServeMux.dispatch, hs]
    · simp only [ServeMux.dispatch, hs, if_false, hH]
      by_cases hc : r.Method = "CONNECT"
      · simp [hc]
      · by_cases hp : cleanPath r.EscapedPath = r.EscapedPath
        · simp [hc, hp]
        · simp [hc, hp]
  · intro hs
    by_cases hc : r.Method = "CONNECT"
    · simp only [hc, if_true] at hH
      simp only [ServeMux.ServeHTTP, hs, if_false, hH, hc, true_or, if_true]
      rfl
    · simp only [hc, if_false] at hH
      by_cases hp : cleanPath r.EscapedPath = r.EscapedPath
      · simp only [hp, ne_eq, not_true_eq_false, if_false] at hH
        simp only [ServeMux.ServeHTTP, hs, if_false, hH, hp, or_true, if_true]
        rfl
      · simp only [hp, ne_eq, not_false_eq_true, if_true] at hH
        simp only [ServeMux.ServeHTTP, hs, if_false, hH, hc, hp, or_self, Handler.ServeHTTP]
        exact Redirect_status r _ _
  · intro hs hcp
    have hN : routes.findHandler r = Handler.NotFoundHandler := by
      rcases hcp with hc | hp
      · simp only [hc, if_true] at hH
        exact hH
      · by_cases hc : r.Method = "CONNECT"
        · simp only [hc, if_true] at hH
          exact hH
        · simp only [hc, if_false, hp, ne_eq, not_true_eq_false] at hH
          exact hH
    refine ⟨?_, ?_⟩
    · simp [ServeMux.dispatch, hs, hN]
    · simp only [ServeMux.ServeHTTP, hs, if_false, hN]
      rfl

/-- Witness for the amended C2: `GET /missing` is answered 404 with the default
not-found response, without `helloHandler`. -/
theorem other_paths_not_served_witness :
    (Request.of "GET" "localhost:8080" "/missing").Path ≠ "/hello" ∧
    routes.dispatch (Request.of "GET" "localhost:8080" "/missing") ≠ some Handler.helloHandler ∧
    (routes.ServeHTTP response.writer response.fresh
      (Request.of "GET" "localhost:8080" "/missing")).status = 404 ∧
    routes.ServeHTTP response.writer response.fresh
        (Request.of "GET" "localhost:8080" "/missing") =
      NotFound response.writer response.fresh (Request.of "GET" "localhost:8080" "/missing") ∧
    (NotFound response.writer response.fresh
      (Request.of "GET" "localhost:8080" "/missing")).body = "404 page not found\n" :=
  ⟨by decide,
    (other_paths_not_served (Request.of "GET" "localhost:8080" "/missing") (by decide)).1,
    ((other_paths_not_served (Request.of "GET" "localhost:8080" "/missing") (by decide)).2.1
      (by decide)).trans (by decide),
    ((other_paths_not_served (Request.of "GET" "localhost:8080" "/missing") (by decide)).2.2.1
      (by decide) (by decide)).2,
    (other_paths_not_served (Request.of "GET" "localhost:8080" "/missing") (by decide)).2.2.2.2⟩

/-- C3, as stated, fails: when the bind fails with "address already in use" the
process ends with nothing at all on standard error; the error is dropped. -/
theorem bind_error_not_reported :
    (run { bindErr := some "listen tcp :8080: bind: address already in use",
           requests := [], serveErr := none }).1.stderr = "" ∧
    (run { bindErr := some "listen tcp :8080: bind: address already in use",
           requests := [], serveErr := none }).1.stdout = startupLine := by
  decide

/-- C3, amended: whenever the listen operation fails to bind and returns an
error `e`, `main` drops `e` and returns at once, so the process terminates
immediately, having served no request; nothing is written to standard error and
standard output holds the startup line only. -/
theorem bind_failure_terminates_silently (env : Env) (e : String)
    (h : env.bindErr = some e) :
    (∃ code, (run env).2 = ExitStatus.exited code) ∧
    (run env).1.served = [] ∧
    (run env).1.stderr = "" ∧
    (run env).1.stdout = startupLine ∧
    (∀ e2 : String, run { env with bindErr := some e2 } = run env) := by
  obtain ⟨b, reqs, se⟩ := env
  simp only at h
  subst h
  exact ⟨⟨0, rfl⟩, rfl, rfl, rfl, fun _ => rfl⟩

/-- Witness for the amended C3: the port is already in use. -/
theorem bind_failure_terminates_silently_witness :
    (∃ code, (run { bindErr := some "bind: address already in use", requests := [],
                    serveErr := none }).2 = ExitStatus.exited code) ∧
    (run { bindErr := some "bind: address already in use", requests := [],
           serveErr := none }).1.served = [] ∧
    (run { bindErr := some "bind: address already in use", requests := [],
           serveErr := none }).1.stderr = "" ∧
    (run { bindErr := some "bind: address already in use", requests := [],
           serveErr := none }).1.stdout = startupLine ∧
    (∀ e2 : String,
      run { bindErr := some e2, requests := [], serveErr := none } =
        run { bindErr := some "bind: address already in use", requests := [],
              serveErr := none }) :=
  bind_failure_terminates_silently
    { bindErr := some "bind: address already in use", requests := [], serveErr := none }
    "bind: address already in use" rfl

/-- C4, as stated, fails: when the bind is refused for lack of permission, `main`
returns normally and the process exits with code 0. -/
theorem bind_error_exit_zero :
    (run { bindErr := some "listen tcp :8080: bind: permission denied",
           requests := [], serveErr := none }).2 = ExitStatus.exited 0 := by
  decide

/-- C4, amended: whenever the initial bind fails, `main` returns normally and the
process exit code is 0. -/
theorem bind_failure_exit_code (env : Env) (e : String) (h : env.bindErr = some e) :
    (∃ p, main env Process.start = Res.ret () p) ∧
    (run env).2 = ExitStatus.exited 0 := by
  obtain ⟨b, reqs, se⟩ := env
  simp only at h
  subst h
  exact ⟨⟨_, rfl⟩, rfl⟩

/-- Witness for the amended C4: binding port 8080 is not permitted. -/
theorem bind_failure_exit_code_witness :
    (∃ p, main { bindErr := some "bind: permission denied", requests := [], serveErr := none }
        Process.start = Res.ret () p) ∧
    (run { bindErr := some "bind: permission denied", requests := [],
           serveErr := none }).2 = ExitStatus.exited 0 :=
  bind_failure_exit_code
    { bindErr := some "bind: permission denied", requests := [], serveErr := none }
    "bind: permission denied" rfl

/-- C5: `helloHandler` ignores its request entirely: for every response writer,
every writer state and every two requests (a nil request included), the two runs
end in the same writer state, and on an instrumented writer they make the same
sequence of interface calls with the same arguments and results. -/
theorem helloHandler_ignores_request {σ : Type} (w : ResponseWriter σ) (s : σ)
    (r1 r2 : Option Request) :
    helloHandler w s r1 = helloHandler w s r2 ∧
    helloHandler (traced w) (s, []) r1 = helloHandler (traced w) (s, []) r2 :=
  ⟨rfl, rfl⟩

/-- C6: the complete standard output of a run of `main` is exactly the line
`Server is running on http://localhost:8080/hello` followed by one newline,
written exactly once, whether the bind fails or succeeds and whatever requests
are served afterwards; serving requests (and so `helloHandler`) writes nothing
to standard output. -/
theorem stdout_is_startup_line (env : Env) :
    (run env).1.stdout = "Server is running on http://localhost:8080/hello\n" ∧
    (run env).1.effects.filter Effect.isStdout =
      [Effect.Stdout "Server is running on http://localhost:8080/hello\n"] := by
  obtain ⟨b, reqs, se⟩ := env
  cases b <;> cases se <;> exact ⟨rfl, rfl⟩

/-- C7: the only effect of `helloHandler` on a response is appending the bytes
`Hello World` to the body.  For every response state, after the handler has run
the header map is unchanged (no `Content-Type` key is added), the body is the
previous body followed by `Hello World`, and an already committed status stays
(otherwise the write commits the default 200); the handler calls neither
`WriteHeader` nor `Header`, its only interface call is one `Write`. -/
theorem helloHandler_frame (s : response) (r : Option Request) :
    (helloHandler response.writer s r).handlerHeader = s.handlerHeader ∧
    Header.has (helloHandler response.writer s r).handlerHeader "Content-Type" =
      Header.has s.handlerHeader "Content-Type" ∧
    (helloHandler response.writer s r).body = s.body ++ "Hello World" ∧
    (helloHandler response.writer s r).status = (if s.wroteHeader then s.status else 200) ∧
    (helloHandler (traced response.writer) (s, []) r).2 = [Call.Write "Hello World" 11 none] := by
  obtain ⟨hd, wh, st, bd⟩ := s
  cases wh <;> exact ⟨rfl, rfl, rfl, rfl, rfl⟩

/-- C9: `main` performs its effects in exactly this order: it registers
`/hello -> helloHandler` on the default route table (the only registration),
then prints the startup message, and only then calls the listen operation with
the address `:8080` (empty host, port 8080) and the nil handler, inside which
the bind is attempted.  This holds on every run, also when the bind fails. -/
theorem main_effect_order (env : Env) :
    (run env).1.effects =
      [Effect.Registered "/hello" Handler.helloHandler,
       Effect.Stdout "Server is running on http://localhost:8080/hello\n",
       Effect.ListenAndServe ":8080" none,
       Effect.Listen "tcp" ":8080"] ∧
    (run env).1.DefaultServeMux.m = [{ h := Handler.helloHandler, pattern := "/hello" }] ∧
    (run env).1.DefaultServeMux.es = [] ∧
    (SplitHostPort ":8080").toOption = some ("", "8080") := by
  obtain ⟨b, reqs, se⟩ := env
  cases b <;> cases se <;> exact ⟨rfl, rfl, rfl, rfl⟩

/-- C10: `helloHandler` has no failure mode.  For every response writer, whatever
its `Write` returns (an error, a short byte count), the handler returns: it makes
exactly one `Write` call, with the bytes `Hello World`, ends in the state that
call left, and neither retries nor passes the result on.  On a writer whose
every `Write` fails it stops after the one attempt. -/
theorem helloHandler_total {σ : Type} (w : ResponseWriter σ) (s : σ) (r : Option Request) :
    helloHandler (traced w) (s, []) r =
      ((w.Write "Hello World" s).1,
       [Call.Write "Hello World" (w.Write "Hello World" s).2.1 (w.Write "Hello World" s).2.2]) ∧
    (helloHandler (traced w) (s, []) r).2.length = 1 ∧
    helloHandler w s r = (w.Write "Hello World" s).1 ∧
    (∀ (n : Nat) (err : String), helloHandler (failingWriter n err) 0 r = 1) ∧
    (∀ (n : Nat) (err : String),
      (helloHandler (traced (failingWriter n err)) (0, []) r).2 =
        [Call.Write "Hello World" n (some err)]) :=
  ⟨rfl, rfl, rfl, fun _ _ => rfl, fun _ _ => rfl⟩

/-! ## Evaluation checks -/

example : cleanPath "/hello" = "/hello" := by decide
example : cleanPath "//hello" = "/hello" := by decide
example : cleanPath "/hello/../hello" = "/hello" := by decide
example : cleanPath "/hello/" = "/hello/" := by decide
example : cleanPath "/a/b/../c/./d//" = "/a/c/d/" := by decide
example : cleanPath "" = "/" := by decide
example : cleanPath "/.." = "/" := by decide
example : cleanPath "abc/../../x" = "/x" := by decide
example : cleanPath "/Hello" = "/Hello" := by decide
example : cleanPath "/a%2F..%2Fhello" = "/a%2F..%2Fhello" := by decide
example : String.mk (Clean "a/../../b/".data) = "../b" := by decide
example : String.mk (Clean "../../x/./y/..".data) = "../../x" := by decide
example : SplitHostPort ":8080" = Except.ok ("", "8080") := by rfl
example : SplitHostPort "localhost:8080" = Except.ok ("localhost", "8080") := by rfl
example : SplitHostPort "[::1]:80" = Except.ok ("::1", "80") := by rfl
example : stripHostPort "example.com:8080" = "example.com" := by decide
example : stripHostPort "example.com" = "example.com" := by decide
example : (unescape "/a%2F..%2Fhello".data).map String.mk = some "/a/../hello" := by decide
example : (unescape "/h%65llo".data).map String.mk = some "/hello" := by decide
example : (unescape "/a%2".data).map String.mk = none := by decide
example : String.mk (escape "/a b/%x?".data) = "/a%20b/%25x%3F" := by decide
example : (helloHandler response.writer response.fresh none).body = "Hello World" := by decide
example : (helloHandler response.writer response.fresh none).status = 200 := by decide
example : "Hello World".utf8ByteSize = 11 := by decide
example : routes = { m := [{ h := Handler.helloHandler, pattern := "/hello" }], es := [], hosts := false } := by decide
example : routes.dispatch (Request.of "GET" "localhost:8080" "/hello") = some Handler.helloHandler := by decide
example : routes.dispatch (Request.of "POST" "localhost:8080" "/hello") = some Handler.helloHandler := by decide
example : routes.dispatch (Request.of "CONNECT" "localhost:8080" "/hello") = some Handler.helloHandler := by decide
example : routes.dispatch (Request.ofEscaped "GET" "localhost:8080" "/h%65llo" "/hello" "") = some Handler.helloHandler := by decide
example : routes.dispatch (Request.of "GET" "localhost:8080" "/") = some Handler.NotFoundHandler := by decide
example : routes.dispatch (Request.of "GET" "localhost:8080" "/hello/") = some Handler.NotFoundHandler := by decide
example : routes.dispatch (Request.of "GET" "localhost:8080" "/Hello") = some Handler.NotFoundHandler := by decide
example : routes.dispatch (Request.of "GET" "localhost:8080" "/missing") = some Handler.NotFoundHandler := by decide
example : routes.dispatch (Request.of "CONNECT" "localhost:8080" "//hello") = some Handler.NotFoundHandler := by decide
example : routes.dispatch (Request.ofEscaped "GET" "localhost:8080" "/a%2F..%2Fhello" "/a/../hello" "") = some Handler.NotFoundHandler := by decide
example : routes.dispatch (Request.ofEscaped "GET" "localhost:8080" "/hello%2F" "/hello/" "") = some Handler.NotFoundHandler := by decide
example : routes.dispatch (Request.of "GET" "localhost:8080" "//hello") = some (Handler.RedirectHandler "/hello" 307) := by decide
example : routes.dispatch (Request.of "GET" "localhost:8080" "/hello/../hello") = some (Handler.RedirectHandler "/hello" 307) := by decide
example : routes.dispatch (Request.ofEscaped "GET" "localhost:8080" "//hello" "//hello" "a=b") = some (Handler.RedirectHandler "/hello?a=b" 307) := by decide
example : routes.ServeHTTP response.writer response.fresh (Request.of "GET" "localhost:8080" "//hello") =
    { handlerHeader := [("Content-Type", ["text/html; charset=utf-8"]), ("Location", ["/hello"])],
      wroteHeader := true, status := 307, body := "<a href=\"/hello\">Temporary Redirect</a>.\n\n" } := by decide
example : routes.ServeHTTP response.writer response.fresh (Request.of "POST" "localhost:8080" "//hello") =
    { handlerHeader := [("Location", ["/hello"])], wroteHeader := true, status := 307, body := "" } := by decide
example : routes.ServeHTTP response.writer response.fresh (Request.of "GET" "localhost:8080" "/missing") =
    { handlerHeader := [("X-Content-Type-Options", ["nosniff"]), ("Content-Type", ["text/plain; charset=utf-8"])],
      wroteHeader := true, status := 404, body := "404 page not found\n" } := by decide
example : (run { bindErr := some "listen tcp :8080: bind: address already in use", requests := [], serveErr := none }).2 = ExitStatus.exited 0 := by decide
example : (run { bindErr := some "listen tcp :8080: bind: address already in use", requests := [], serveErr := none }).1.stderr = "" := by decide
example : (run { bindErr := none, requests := [Request.of "GET" "localhost:8080" "/hello", Request.of "GET" "localhost:8080" "//hello", Request.of "GET" "localhost:8080" "/missing"], serveErr := none }).1.served.map (fun x => (x.2.status, x.2.body)) =
    [(200, "Hello World"), (307, "<a href=\"/hello\">Temporary Redirect</a>.\n\n"), (404, "404 page not found\n")] := by decide

end HelloServer
